import Mathlib

/-!
Verification development for the `perplexity-for-pdfs` repository.

The development shallowly embeds the query-to-ranked-passages pipeline:

* `createSemanticCacheKey` (src/unnamed/part_001, `utils`): query normalization,
  semantic-object construction, context handling and final key assembly.  The
  external collaborators — the `compromise` NLP analysis and the `crypto`
  digests — are passed in as function parameters (`nlp`, `sha256hex16`,
  `md5hex8`), exactly at the boundaries where the source calls out to them.
* `PDFProcessor` (src/service/pdf-processor.ts): `serializeDocuments`,
  `storePdfEmbeddings`, `retrievePdfEmbeddings`, `findRelevantPages`,
  `processPdf`, with the shared in-memory vector store threaded as explicit
  state and external facilities (text splitter, embedding-backed similarity
  search, Pinecone retrieval, PDF fetch) as oracle fields of `Env`.
* the orchestrator (src/actions/search.ts): `addToRecentSearches`,
  `searchAndValidatePDFs`, `serializeResults`, `processQuery`.  JavaScript
  exceptions are modelled with `Except`; the unchecked `results[0]` access in
  `serializeResults` is modelled by `Option` (`none` = thrown `TypeError`).
  Every external call the pipeline performs is recorded in a `Call` trace so
  that "invokes no collaborator" style statements are expressible.

`Promise.all` is modelled sequentially: every branch runs (state and trace
accumulate left to right) and the combined promise resolves iff every branch
resolved, otherwise it rejects with the first rejection (`allOk`).
-/

/-! ### JavaScript string primitives

Lean's built-in `String.toLower`/`trim`/`≤` do not kernel-reduce, so the
JavaScript string operations used by the source are modelled directly over
the character list. -/

/-- Lower-cases an ASCII letter, as `String.prototype.toLowerCase` does on
the ASCII range. -/
def charLower (c : Char) : Char :=
  if 'A' ≤ c && c ≤ 'Z' then Char.ofNat (c.toNat + 32) else c

/-- Model of `String.prototype.toLowerCase`. -/
def jsLower (s : String) : String := String.mk (s.data.map charLower)

/-- Model of `String.prototype.trim`: strips leading and trailing
whitespace. -/
def jsTrim (s : String) : String :=
  String.mk ((s.data.dropWhile Char.isWhitespace).reverse.dropWhile Char.isWhitespace).reverse

/-- Character-list worker for `collapseWs`; the flag records whether the
previous character was whitespace (so that a run contributes one space). -/
def collapseWsAux : List Char → Bool → List Char
  | [], _ => []
  | c :: cs, prevWs =>
    if c.isWhitespace then
      if prevWs then collapseWsAux cs true
      else ' ' :: collapseWsAux cs true
    else c :: collapseWsAux cs false

/-- Model of `.replace(/\s+/g, " ")`: every maximal whitespace run becomes a
single space. -/
def collapseWs (s : String) : String := String.mk (collapseWsAux s.data false)

/-- Lexicographic comparison of character lists by code point; models the
default (UTF-16 code unit) string comparison of JavaScript `Array.sort()`. -/
def lexLe : List Char → List Char → Bool
  | [], _ => true
  | _ :: _, [] => false
  | a :: as, b :: bs =>
    if a.toNat < b.toNat then true
    else if b.toNat < a.toNat then false
    else lexLe as bs

/-- String comparison used for `.sort()` on string arrays. -/
def strLe (a b : String) : Bool := lexLe a.data b.data

/-- Ordered insertion used by `sortByLe`. -/
def insertLe (le : α → α → Bool) (a : α) : List α → List α
  | [] => [a]
  | b :: bs => if le a b then a :: b :: bs else b :: insertLe le a bs

/-- Comparison sort modelling JavaScript `Array.prototype.sort(comparator)`
(the source only relies on the output being sorted by the comparator). -/
def sortByLe (le : α → α → Bool) : List α → List α
  | [] => []
  | a :: as => insertLe le a (sortByLe le as)

/-! ### Semantic cache key deriver (`createSemanticCacheKey`) -/

/-- Result of the `compromise` linguistic analysis on the normalized query:
`doc.topics()`, `doc.nouns()`, `doc.verbs()` in extraction order, whether
`doc.questions()` is non-empty, the `doc.has("who")`/… probes, and
`doc.has("#Negative")`.  The analysis itself is an external collaborator. -/
structure NlpDoc where
  entities : List String
  nouns : List String
  verbs : List String
  hasQuestion : Bool
  hasWho : Bool
  hasWhat : Bool
  hasWhere : Bool
  hasWhen : Bool
  hasWhy : Bool
  hasHow : Bool
  isNegative : Bool
deriving DecidableEq, Repr

/-- The `filters` context field: a plain object (entry list) or a string. -/
inductive FiltersVal where
  | obj (entries : List (String × String))
  | str (s : String)
deriving DecidableEq, Repr

/-- `ContextOptions` of the source; a `none` field is an absent key. -/
structure ContextOptions where
  userId : Option String
  language : Option String
  domain : Option String
  filters : Option FiltersVal
  timeWindow : Option Int
deriving DecidableEq, Repr

/-- The empty context `{}` (no keys). -/
def emptyContext : ContextOptions := ⟨none, none, none, none, none⟩

/-- Model of `Object.keys(context).length > 0`. -/
def ctxNonEmpty (c : ContextOptions) : Bool :=
  c.userId.isSome || c.language.isSome || c.domain.isSome ||
    c.filters.isSome || c.timeWindow.isSome

/-- `SemanticKeyOptions` of the source. -/
structure SemanticKeyOptions where
  context : ContextOptions
  useSemanticKey : Bool
  semanticVersion : Nat
deriving DecidableEq, Repr

/-- The default options `{}`: empty context, semantic mode on, version 1. -/
def defaultKeyOptions : SemanticKeyOptions := ⟨emptyContext, true, 1⟩

/-- Extraction of the question type: `questions` non-empty, then the first of
who/what/where/when/why/how that the document matches, otherwise `""`. -/
def questionType (d : NlpDoc) : String :=
  if d.hasQuestion then
    if d.hasWho then "who"
    else if d.hasWhat then "what"
    else if d.hasWhere then "where"
    else if d.hasWhen then "when"
    else if d.hasWhy then "why"
    else if d.hasHow then "how"
    else ""
  else ""

/-- JSON string literal (with quote/backslash escaping, as
`JSON.stringify` produces for the strings involved here). -/
def jsonStr (s : String) : String :=
  "\"" ++ String.mk ((s.data.map
    (fun c => if c = '"' || c = '\\' then ['\\', c] else [c])).flatten) ++ "\""

/-- JSON array of strings. -/
def jsonArr (l : List String) : String :=
  "[" ++ String.intercalate "," (l.map jsonStr) ++ "]"

/-- `JSON.stringify` of the `semanticObject` (field order as declared in the
source: entities, nouns, verbs, questionType, isNegative, version). -/
def semanticString (entities nouns verbs : List String) (qType : String)
    (isNegative : Bool) (version : Nat) : String :=
  "\x7b\"entities\":" ++ jsonArr entities ++
    ",\"nouns\":" ++ jsonArr nouns ++
    ",\"verbs\":" ++ jsonArr verbs ++
    ",\"questionType\":" ++ jsonStr qType ++
    ",\"isNegative\":" ++ (if isNegative then "true" else "false") ++
    ",\"version\":" ++ toString version ++ "\x7d"

/-- `JSON.stringify(Object.entries(filters).sort())`: the entry pairs are
sorted by the default comparator (string conversion `"key,value"`) and
serialized as an array of two-element arrays. -/
def filtersString : FiltersVal → String
  | .obj entries =>
    let sorted := sortByLe
      (fun p q => strLe (p.1 ++ "," ++ p.2) (q.1 ++ "," ++ q.2)) entries
    "[" ++ String.intercalate ","
      (sorted.map (fun p => "[" ++ jsonStr p.1 ++ "," ++ jsonStr p.2 ++ "]")) ++ "]"
  | .str s => s

/-- `JSON.stringify` of the `contextObj` with the source's defaults
(`userId` "", `language` "en", `domain` "general", `filters` `{}`,
`timeWindow` 0) and day-bucketed time window. -/
def contextString (c : ContextOptions) : String :=
  let userId := c.userId.getD ""
  let language := c.language.getD "en"
  let domain := c.domain.getD "general"
  let filters := c.filters.getD (.obj [])
  let timeWindow := c.timeWindow.getD 0
  "\x7b\"userId\":" ++ jsonStr userId ++
    ",\"language\":" ++ jsonStr language ++
    ",\"domain\":" ++ jsonStr domain ++
    ",\"filters\":" ++ jsonStr (filtersString filters) ++
    ",\"timeWindow\":" ++ toString (Int.fdiv timeWindow 24) ++ "\x7d"

/-- Normalization step of `createSemanticCacheKey`:
`query.trim().toLowerCase().replace(/\s+/g, " ")`. -/
def normalizeQuery (q : String) : String := collapseWs (jsLower (jsTrim q))

/-- Embedding of `createSemanticCacheKey` (src/unnamed/part_001).  The
`compromise` analysis and the two digest-and-truncate steps
(`sha256 … hex … substring(0,16)` and `md5 … hex … substring(0,8)`) are
external collaborators passed as `nlp`, `sha256hex16` and `md5hex8`. -/
def createSemanticCacheKey (nlp : String → NlpDoc)
    (sha256hex16 md5hex8 : String → String)
    (query : String) (options : SemanticKeyOptions) : String :=
  let normalizedQuery := normalizeQuery query
  let querySignature :=
    if options.useSemanticKey then
      let doc := nlp normalizedQuery
      let entities := sortByLe strLe (doc.entities.take 3)
      let nouns := sortByLe strLe (doc.nouns.take 5)
      let verbs := sortByLe strLe (doc.verbs.take 3)
      sha256hex16 (semanticString entities nouns verbs (questionType doc)
        doc.isNegative options.semanticVersion)
    else
      sha256hex16 normalizedQuery
  let contextSignature :=
    if ctxNonEmpty options.context then md5hex8 (contextString options.context)
    else ""
  let keyPref := if options.useSemanticKey then "sem" else "txt"
  if contextSignature = "" then keyPref ++ "_" ++ querySignature
  else keyPref ++ "_" ++ querySignature ++ "_ctx" ++ contextSignature

/-! ### Data model of the pipeline -/

/-- One Google search hit as consumed by `processQuery`:
`{link, title, snippet, pagemap?.cse_thumbnail?.[0]?.src}` (the optional
thumbnail chain is collapsed into an `Option`). -/
structure SearchHit where
  link : String
  title : String
  snippet : String
  thumb : Option String
deriving DecidableEq, Repr

/-- The `PDF` record handed to `PDFProcessor.processPdf`. -/
structure PDF where
  url : String
  title : String
  snippet : String
  thumbnail : String
deriving DecidableEq, Repr

/-- A langchain `Document` as it flows through the processor: `pageContent`
plus the metadata fields the pipeline reads (`loc.lines.from`,
`loc.lines.to`, `loc.pageNumber`, `pdf.totalPages`, `pdfUrl`, `source`).
Pages loaded from a PDF and splitter chunks share this shape; the
`pdfUrl`/`source` fields are filled in by `storePdfEmbeddings`. -/
structure Chunk where
  pageContent : String
  locLinesFrom : Int
  locLinesTo : Int
  locPageNumber : Int
  pdfTotalPages : Int
  pdfUrl : String
  source : String
deriving DecidableEq, Repr

/-- The in-memory vector store contents (`MemoryVectorStore`), shared at
module level in the source and threaded explicitly here. -/
abbrev MemStore := List Chunk

/-- One element of the `DocumentArray` produced by
`PDFProcessor.serializeDocuments`. -/
structure DocItem where
  pageContent : String
  locLinesFrom : Int
  locLinesTo : Int
  locPageNumber : Int
  pdfTotalPages : Int
  pdfUrl : String
  source : String
  score : Int
  thumbnail : String
  title : String
  snippet : String
deriving DecidableEq, Repr

/-- One entry of `PDFSearchResult.relevantPages`. -/
structure RelevantPage where
  pageNumber : Int
  pageContent : String
  score : Int
  totalPages : Int
  locLinesFrom : Int
  locLinesTo : Int
  locPageNumber : Int
deriving DecidableEq, Repr

/-- The `PDFSearchResult` interface of src/actions/search.ts. -/
structure PDFSearchResult where
  pdfUrl : String
  title : String
  snippet : String
  thumbnail : String
  relevantPages : List RelevantPage
deriving DecidableEq, Repr

/-- Per-document processing operations recorded while `processPdf` runs:
querying the durable (Pinecone) tier, fetching/parsing the PDF, splitting it
into chunks, and requesting embeddings for an upsert. -/
inductive PdfOp where
  | durableQuery (url : String)
  | fetchPdf (url : String)
  | chunkDoc (url : String)
  | embedStore (url : String)
deriving DecidableEq, Repr

/-- External calls made by `processQuery`, in order. -/
inductive Call where
  | recentPush (q : String)
  | searchProvider (q : String)
  | validate
  | cacheGet (k : String)
  | pdfOp (op : PdfOp)
  | cacheSet (k : String)
deriving DecidableEq, Repr

/-- Oracles for every external collaborator the pipeline touches.  Each field
is the boundary at which the source awaits an external facility:

* `nlp`, `sha256hex16`, `md5hex8` — see `createSemanticCacheKey`;
* `searchPDFs` — `googleSearchAPI.searchPDFs(query, 3)`, which may reject;
* `validOk` — the per-candidate HEAD probe of `validatePDFResults`
  (`true` iff status 200 with an `application/pdf` content type; a thrown
  probe error is caught in the source's loop, i.e. equals `false`);
* `redisGet` — `redis.get`, which may reject;
* `parseCached` — `JSON.parse` of a cached query entry, which may throw;
* `retrieveDurable` — `retrievePdfEmbeddings(url, query)` against Pinecone;
  the source catches every error and returns `[]`, so the oracle is total;
* `loadPdf` — `loadPdfFromUrl`, which rethrows fetch/parse failures;
* `splitDocs` — the `RecursiveCharacterTextSplitter`;
* `embedFails` — whether embedding/upserting the given chunk batch throws
  (the source catches this and returns `false` from `storePdfEmbeddings`);
* `searchMem` — `memoryVectorStore.similaritySearchWithScore(query, k, ·)`
  run over the store contents that pass the filter. -/
structure Env where
  nlp : String → NlpDoc
  sha256hex16 : String → String
  md5hex8 : String → String
  searchPDFs : String → Except String (List SearchHit)
  validOk : String → Bool
  redisGet : String → Except String (Option String)
  parseCached : String → Except String (List PDFSearchResult)
  retrieveDurable : String → String → List (Chunk × Int)
  loadPdf : String → Except String (List Chunk)
  splitDocs : List Chunk → List Chunk
  embedFails : List Chunk → Bool
  searchMem : String → Nat → List Chunk → List (Chunk × Int)

/-! ### PDFProcessor (src/service/pdf-processor.ts) -/

/-- Embedding of `PDFProcessor.serializeDocuments`: pairs of document and
score become `DocItem`s carrying the candidate's presentation fields. -/
def serializeDocuments (documents : List (Chunk × Int)) (pdf : PDF) : List DocItem :=
  documents.map (fun dc =>
    { pageContent := dc.1.pageContent
      locLinesFrom := dc.1.locLinesFrom
      locLinesTo := dc.1.locLinesTo
      locPageNumber := dc.1.locPageNumber
      pdfTotalPages := dc.1.pdfTotalPages
      pdfUrl := dc.1.pdfUrl
      source := dc.1.source
      score := dc.2
      thumbnail := pdf.thumbnail
      title := pdf.title
      snippet := pdf.snippet })

/-- Embedding of `PDFProcessor.storePdfEmbeddings`: split the documents,
attach `pdfUrl`/`source` metadata, then upsert into the chosen tier.  An
embedding/upsert failure is caught and reported as `false`; only a memory
upsert changes the threaded store (a Pinecone upsert is outside it). -/
def storePdfEmbeddings (env : Env) (pdfUrl : String) (documents : List Chunk)
    (storeInMemory : Bool) (store : MemStore) : Bool × MemStore × List PdfOp :=
  let chunksWithMetadata := (env.splitDocs documents).map
    (fun c => { c with pdfUrl := pdfUrl, source := pdfUrl })
  let ops := [PdfOp.chunkDoc pdfUrl, PdfOp.embedStore pdfUrl]
  if env.embedFails chunksWithMetadata then (false, store, ops)
  else if storeInMemory then (true, store ++ chunksWithMetadata, ops)
  else (true, store, ops)

/-- Embedding of `PDFProcessor.retrievePdfEmbeddings`: the memory tier runs
the similarity search over the store entries whose `pdfUrl` matches; the
durable tier is the `retrieveDurable` oracle (which already encodes the
source's catch-all returning `[]`). -/
def retrievePdfEmbeddings (env : Env) (pdfUrl query : String)
    (storeInMemory : Bool) (store : MemStore) : List (Chunk × Int) :=
  if storeInMemory then
    env.searchMem query 5 (store.filter (fun c => c.pdfUrl == pdfUrl))
  else
    env.retrieveDurable pdfUrl query

/-- Embedding of `PDFProcessor.findRelevantPages`.  A document of more than
50 pages is split into consecutive 50-page groups, each routed recursively
through the same path (the source's `chunks` loop is expressed as
take-50/drop-50 recursion, which produces the identical groups in the same
order), and the sub-results are concatenated.  At 50 pages or fewer, the
pages are stored into the memory tier and the top passages for the query are
retrieved from it. -/
def findRelevantPages (env : Env) (documents : List Chunk)
    (query pdfUrl : String) (store : MemStore) :
    List (Chunk × Int) × MemStore × List PdfOp :=
  if h : 50 < documents.length then
    let r1 := findRelevantPages env (documents.take 50) query pdfUrl store
    let r2 := findRelevantPages env (documents.drop 50) query pdfUrl r1.2.1
    (r1.1 ++ r2.1, r2.2.1, r1.2.2 ++ r2.2.2)
  else
    let st := storePdfEmbeddings env pdfUrl documents true store
    (retrievePdfEmbeddings env pdfUrl query true st.2.1, st.2.1, st.2.2)
termination_by documents.length
decreasing_by
  · simp only [List.length_take]; omega
  · simp only [List.length_drop]; omega

/-- Embedding of `PDFProcessor.processPdf`: a non-empty durable-tier hit is
serialized and returned as-is; otherwise the PDF is fetched (a fetch/parse
failure rethrows), routed through `findRelevantPages`, stored into the
durable tier fire-and-forget (its failure is caught by the attached
handler), and the fresh passages are serialized. -/
def processPdf (env : Env) (pdf : PDF) (query : String) (store : MemStore) :
    Except String (List DocItem) × MemStore × List PdfOp :=
  let pdfEmbedding := env.retrieveDurable pdf.url query
  if 0 < pdfEmbedding.length then
    (.ok (serializeDocuments pdfEmbedding pdf), store, [PdfOp.durableQuery pdf.url])
  else
    match env.loadPdf pdf.url with
    | .error e =>
      (.error ("Failed to load PDF from URL: " ++ e), store,
        [PdfOp.durableQuery pdf.url, PdfOp.fetchPdf pdf.url])
    | .ok docs =>
      let fr := findRelevantPages env docs query pdf.url store
      let st := storePdfEmbeddings env pdf.url docs false fr.2.1
      (.ok (serializeDocuments fr.1 pdf), st.2.1,
        [PdfOp.durableQuery pdf.url, PdfOp.fetchPdf pdf.url] ++ fr.2.2 ++ st.2.2)

/-! ### Orchestrator (src/actions/search.ts) -/

/-- Embedding of `addToRecentSearches` on the Redis list state:
`LREM key 0 query` removes every prior occurrence, `LPUSH` prepends the
query, `LTRIM key 0 9` keeps the 10 most recent. -/
def addToRecentSearches (query : String) (recent : List String) : List String :=
  (query :: recent.filter (fun x => x != query)).take 10

/-- Embedding of `GoogleSearchAPI.validatePDFResults`: each candidate is
probed with an HTTP HEAD request; candidates that fail (non-200, wrong
content type, or a thrown/timed-out probe, all caught in the loop) are
silently dropped. -/
def validatePDFResults (env : Env) (results : List SearchHit) : List SearchHit :=
  results.filter (fun r => env.validOk r.link)

/-- Embedding of `searchAndValidatePDFs`: search then validate inside a
`try`/`catch` whose handler returns `undefined` (`none`). -/
def searchAndValidatePDFs (env : Env) (query : String) : Option (List SearchHit) :=
  match env.searchPDFs query with
  | .error _ => none
  | .ok searchResults => some (validatePDFResults env searchResults)

/-- Mapping of a validated hit to the `PDF` record handed to the processor
(`pagemap?.cse_thumbnail?.[0]?.src ?? ""`). -/
def toPDF (hit : SearchHit) : PDF :=
  { url := hit.link, title := hit.title, snippet := hit.snippet,
    thumbnail := hit.thumb.getD "" }

/-- Redis key of the query cache entry: `query:` followed by the semantic
key of the query under the default options. -/
def queryCacheKey (env : Env) (query : String) : String :=
  "query:" ++ createSemanticCacheKey env.nlp env.sha256hex16 env.md5hex8
    query defaultKeyOptions

/-- Comparator of `serializeResults`: `(a, b) => a.pageNumber - b.pageNumber`
sorts ascending by page number. -/
def pageLe (a b : RelevantPage) : Bool := a.pageNumber ≤ b.pageNumber

/-- Projection of a `DocItem` to one `relevantPages` entry. -/
def toRelevantPage (r : DocItem) : RelevantPage :=
  { pageNumber := r.locPageNumber, pageContent := r.pageContent,
    score := r.score, totalPages := r.pdfTotalPages,
    locLinesFrom := r.locLinesFrom, locLinesTo := r.locLinesTo,
    locPageNumber := r.locPageNumber }

/-- Message of the `TypeError` thrown when `serializeResults` reads
`results[0]` of an empty array. -/
def typeErrorMsg : String :=
  "TypeError: cannot read properties of undefined (reading metadata)"

/-- Embedding of `serializeResults`: the pages are re-sorted ascending by
page number, and the header fields are read from `results[0]` — an access
that is undefined on an empty array (`none` models the thrown
`TypeError`). -/
def serializeResults (results : List DocItem) : Option PDFSearchResult :=
  match results with
  | [] => none
  | r0 :: _ =>
    some { pdfUrl := r0.pdfUrl, title := r0.title, snippet := r0.snippet,
           thumbnail := r0.thumbnail,
           relevantPages := sortByLe pageLe (results.map toRelevantPage) }

/-- The `results.map(result => serializeResults(result))` step; a thrown
`TypeError` on any element aborts the whole map (`none`). -/
def serializeAll : List (List DocItem) → Option (List PDFSearchResult)
  | [] => some []
  | r :: rs =>
    match serializeResults r, serializeAll rs with
    | some x, some xs => some (x :: xs)
    | _, _ => none

/-- The `Promise.all(pdfs.map(pdf => pdfProcessor.processPdf(pdf, query)))`
fan-out, sequentialized: every branch runs (state and per-document
operations accumulate), and each branch's own outcome is collected. -/
def runAll (env : Env) (query : String) :
    List PDF → MemStore → List (Except String (List DocItem)) × MemStore × List PdfOp
  | [], store => ([], store, [])
  | pdf :: rest, store =>
    let r := processPdf env pdf query store
    let rs := runAll env query rest r.2.1
    (r.1 :: rs.1, rs.2.1, r.2.2 ++ rs.2.2)

/-- Resolution of the combined promise: `Promise.all` resolves with the list
of values iff every branch resolved, and otherwise rejects with the first
rejection. -/
def allOk : List (Except String α) → Except String (List α)
  | [] => .ok []
  | .error e :: _ => .error e
  | .ok x :: rest =>
    match allOk rest with
    | .error e => .error e
    | .ok xs => .ok (x :: xs)

/-- Mutable state surrounding one `processQuery` call: the module-level
in-memory vector store and the Redis recent-searches list. -/
structure PState where
  memStore : MemStore
  recent : List String
deriving DecidableEq, Repr

/-- Embedding of `processQuery` (src/actions/search.ts, lines 37–85), the
externally consumed entry point.  Steps in source order: push to recent
searches (errors caught); search and validate (errors caught, `undefined`
short-circuits to `[]`); derive the semantic key and read the query cache
(`redis.get` and `JSON.parse` failures propagate); on a hit return the
parsed entry; on a miss process every candidate through `processPdf`
(`Promise.all`, so one rejection rejects the call), serialize each document
(`results[0]` of an empty array throws), then fire-and-forget the cache
write and return.  The returned trace records the external calls made. -/
def processQuery (env : Env) (query : String) (st : PState) :
    Except String (List PDFSearchResult) × PState × List Call :=
  let recent := addToRecentSearches query st.recent
  let t0 := [Call.recentPush query]
  match searchAndValidatePDFs env query with
  | none =>
    (.ok [], { st with recent := recent }, t0 ++ [Call.searchProvider query])
  | some validPDFs =>
    let pdfs := validPDFs.map toPDF
    let key := queryCacheKey env query
    let t1 := t0 ++ [Call.searchProvider query, Call.validate, Call.cacheGet key]
    match env.redisGet key with
    | .error e => (.error e, { st with recent := recent }, t1)
    | .ok (some cached) =>
      match env.parseCached cached with
      | .error e => (.error e, { st with recent := recent }, t1)
      | .ok v => (.ok v, { st with recent := recent }, t1)
    | .ok none =>
      let rr := runAll env query pdfs st.memStore
      let t2 := t1 ++ rr.2.2.map Call.pdfOp
      match allOk rr.1 with
      | .error e => (.error e, ⟨rr.2.1, recent⟩, t2)
      | .ok results =>
        match serializeAll results with
        | none => (.error typeErrorMsg, ⟨rr.2.1, recent⟩, t2)
        | some serializedResults =>
          (.ok serializedResults, ⟨rr.2.1, recent⟩, t2 ++ [Call.cacheSet key])

/-! ### Recent-searches fold and concrete fixtures -/

/-- Folding a sequence of pushes into the (initially empty) recent-searches
list. -/
def pushAll (qs : List String) : List String :=
  qs.foldl (fun l q => addToRecentSearches q l) []

/-- Linguistic analysis that extracts nothing (used where the key value is
irrelevant). -/
def noNlp : String → NlpDoc :=
  fun _ => ⟨[], [], [], false, false, false, false, false, false, false, false⟩

/-- Identity instantiation of a digest-and-truncate collaborator. -/
def idHash : String → String := fun s => s

/-- A one-page document. -/
def chunk0 : Chunk := ⟨"Page one text", 1, 12, 1, 1, "", ""⟩

/-- A stored chunk from page 1 of `http://a.pdf`. -/
def chunkP1 : Chunk := ⟨"intro", 1, 5, 1, 9, "http://a.pdf", "http://a.pdf"⟩

/-- A stored chunk from page 3 of `http://a.pdf`. -/
def chunkP3 : Chunk := ⟨"details", 2, 8, 3, 9, "http://a.pdf", "http://a.pdf"⟩

/-- Candidate search hits. -/
def hitA : SearchHit := ⟨"http://a.pdf", "Doc A", "snippet a", none⟩

/-- Second candidate. -/
def hitB : SearchHit := ⟨"http://b.pdf", "Doc B", "snippet b", some "thumb b"⟩

/-- Third candidate. -/
def hitC : SearchHit := ⟨"http://c.pdf", "Doc C", "snippet c", none⟩

/-- A benign environment: search finds nothing, every probe validates, the
caches are empty and read cleanly, fetching yields the one-page document,
splitting is the identity, embedding succeeds, and the similarity engine
returns every filtered chunk with score 1. -/
def baseEnv : Env :=
  { nlp := noNlp
    sha256hex16 := idHash
    md5hex8 := idHash
    searchPDFs := fun _ => .ok []
    validOk := fun _ => true
    redisGet := fun _ => .ok none
    parseCached := fun _ => .ok []
    retrieveDurable := fun _ _ => []
    loadPdf := fun _ => .ok [chunk0]
    splitDocs := fun ds => ds
    embedFails := fun _ => false
    searchMem := fun _ _ stored => stored.map (fun c => (c, 1)) }

/-- Initial state: empty memory store and recent list. -/
def st0 : PState := ⟨[], []⟩

/-- Environment whose query-cache entry is present but fails to parse. -/
def envCacheBad : Env :=
  { baseEnv with
    redisGet := fun _ => .ok (some "not json")
    parseCached := fun _ => .error "SyntaxError: unexpected token in JSON" }

/-- Environment where search finds one candidate and the similarity engine
always returns a passage. -/
def envAlwaysFinds : Env :=
  { baseEnv with
    searchPDFs := fun _ => .ok [hitA]
    searchMem := fun _ _ _ => [(chunkP1, 3)] }

/-- Environment with three validated candidates where fetching the second
document throws while the first and third are served from the durable
tier. -/
def envDoc2Fails : Env :=
  { baseEnv with
    searchPDFs := fun _ => .ok [hitA, hitB, hitC]
    retrieveDurable := fun url _ => if url == "http://b.pdf" then [] else [(chunkP1, 2)]
    loadPdf := fun url => if url == "http://b.pdf" then .error "boom" else .ok [chunk0] }

/-- A previously cached serialized result. -/
def cachedResult : PDFSearchResult := ⟨"http://a.pdf", "Doc A", "snippet a", "", []⟩

/-- Environment with one candidate and a query-cache hit that parses to
`[cachedResult]`. -/
def envCacheHit : Env :=
  { baseEnv with
    searchPDFs := fun _ => .ok [hitA]
    redisGet := fun _ => .ok (some "cached entry")
    parseCached := fun _ => .ok [cachedResult] }

/-- Environment with one candidate whose similarity search finds nothing, so
the document's result list is empty. -/
def envEmptyDoc : Env :=
  { baseEnv with
    searchPDFs := fun _ => .ok [hitA]
    searchMem := fun _ _ _ => [] }

/-- Environment whose durable tier has passages for every URL. -/
def envDurableHit : Env :=
  { baseEnv with retrieveDurable := fun _ _ => [(chunkP1, 2)] }

/-- Environment with one candidate served from the durable tier with the
higher-scored passage on a later page (retrieval order 3, 1). -/
def envScoreOrder : Env :=
  { baseEnv with
    searchPDFs := fun _ => .ok [hitA]
    retrieveDurable := fun _ _ => [(chunkP3, 5), (chunkP1, 4)] }

/-- Extraction results with the same bag of six nouns in two different
orders (beyond the five-noun cap). -/
def nounsDocA : NlpDoc :=
  ⟨[], ["a", "b", "c", "d", "e", "f"], [], false, false, false, false, false,
    false, false, false⟩

/-- The same noun bag, rotated. -/
def nounsDocB : NlpDoc :=
  ⟨[], ["f", "a", "b", "c", "d", "e"], [], false, false, false, false, false,
    false, false, false⟩

/-- An analysis that extracts `nounsDocA` from the query `alpha` and
`nounsDocB` from every other query. -/
def nlpSameBag : String → NlpDoc :=
  fun s => if s == "alpha" then nounsDocA else nounsDocB

/-- Fifteen distinct queries. -/
def qs15 : List String :=
  ["a", "b", "c", "d", "e", "f", "g", "h", "i", "j", "k", "l", "m", "n", "o"]

/-- A 120-page document. -/
def docs120 : List Chunk := List.replicate 120 chunk0

/-- Extraction results sharing the entity/noun/verb bags within the caps,
with the common elements in different orders. -/
def capDocA : NlpDoc :=
  ⟨["beta", "alpha"], ["n2", "n1"], ["v1"], true, false, true, false, false,
    false, false, false⟩

/-- The same capped bags in the other order. -/
def capDocB : NlpDoc :=
  ⟨["alpha", "beta"], ["n1", "n2"], ["v1"], true, false, true, false, false,
    false, false, false⟩

/-- An analysis mapping the query `x` to `capDocA` and every other query to
`capDocB`. -/
def nlpCapBag : String → NlpDoc := fun s => if s == "x" then capDocA else capDocB

/-- The serialized result that `envScoreOrder` produces: pages re-sorted
ascending (1 then 3) although retrieval order was by score (3 then 1). -/
def resScoreOrder : PDFSearchResult :=
  ⟨"http://a.pdf", "Doc A", "snippet a", "",
    [⟨1, "intro", 4, 9, 1, 5, 1⟩, ⟨3, "details", 5, 9, 2, 8, 3⟩]⟩

/-! ### General lemmas on the sort and string primitives -/

theorem insertLe_perm (le : α → α → Bool) (a : α) (l : List α) :
    (insertLe le a l).Perm (a :: l) := by
  induction l with
  | nil => simp [insertLe]
  | cons b bs ih =>
    simp only [insertLe]
    split
    · exact List.Perm.refl _
    · exact (ih.cons b).trans (List.Perm.swap a b bs)

theorem sortByLe_perm (le : α → α → Bool) (l : List α) : (sortByLe le l).Perm l := by
  induction l with
  | nil => simp [sortByLe]
  | cons a as ih => exact (insertLe_perm le a (sortByLe le as)).trans (ih.cons a)

theorem pairwise_insertLe (le : α → α → Bool)
    (htot : ∀ a b, le a b = false → le b a = true)
    (htrans : ∀ a b c, le a b = true → le b c = true → le a c = true)
    (a : α) {l : List α}
    (hl : l.Pairwise (fun x y => le x y = true)) :
    (insertLe le a l).Pairwise (fun x y => le x y = true) := by
  induction l with
  | nil => simp [insertLe]
  | cons b bs ih =>
    rw [List.pairwise_cons] at hl
    simp only [insertLe]
    cases hab : le a b with
    | true =>
      rw [if_pos rfl]
      refine List.pairwise_cons.mpr ⟨?_, List.pairwise_cons.mpr hl⟩
      intro x hx
      rcases List.mem_cons.mp hx with hx | hx
      · subst hx; exact hab
      · exact htrans a b x hab (hl.1 x hx)
    | false =>
      rw [if_neg (by simp)]
      refine List.pairwise_cons.mpr ⟨?_, ih hl.2⟩
      intro x hx
      rcases List.mem_cons.mp ((insertLe_perm le a bs).mem_iff.mp hx) with hx | hx
      · rw [hx]; exact htot a b hab
      · exact hl.1 x hx

theorem sortByLe_pairwise (le : α → α → Bool)
    (htot : ∀ a b, le a b = false → le b a = true)
    (htrans : ∀ a b c, le a b = true → le b c = true → le a c = true)
    (l : List α) :
    (sortByLe le l).Pairwise (fun x y => le x y = true) := by
  induction l with
  | nil => simp [sortByLe]
  | cons a as ih => exact pairwise_insertLe le htot htrans a ih

theorem sortByLe_eq_of_perm (le : α → α → Bool)
    (htot : ∀ a b, le a b = false → le b a = true)
    (htrans : ∀ a b c, le a b = true → le b c = true → le a c = true)
    (hanti : ∀ a b, le a b = true → le b a = true → a = b)
    {l₁ l₂ : List α} (h : l₁.Perm l₂) : sortByLe le l₁ = sortByLe le l₂ := by
  haveI : IsAntisymm α (fun x y => le x y = true) := ⟨hanti⟩
  exact List.eq_of_perm_of_sorted
    ((sortByLe_perm le l₁).trans (h.trans (sortByLe_perm le l₂).symm))
    (sortByLe_pairwise le htot htrans l₁) (sortByLe_pairwise le htot htrans l₂)

theorem lexLe_total : ∀ as bs : List Char, lexLe as bs = false → lexLe bs as = true := by
  intro as
  induction as with
  | nil => intro bs h; simp [lexLe] at h
  | cons a as ih =>
    intro bs h
    cases bs with
    | nil => simp [lexLe]
    | cons b bs' =>
      simp only [lexLe] at h ⊢
      by_cases h1 : a.toNat < b.toNat
      · simp [h1] at h
      · by_cases h2 : b.toNat < a.toNat
        · simp [h1, h2] at h ⊢
        · simp only [if_neg h1, if_neg h2] at h ⊢
          exact ih bs' h

theorem lexLe_antisymm : ∀ as bs : List Char,
    lexLe as bs = true → lexLe bs as = true → as = bs := by
  intro as
  induction as with
  | nil =>
    intro bs _ h2
    cases bs with
    | nil => rfl
    | cons b bs' => simp [lexLe] at h2
  | cons a as ih =>
    intro bs h1 h2
    cases bs with
    | nil => simp [lexLe] at h1
    | cons b bs' =>
      simp only [lexLe] at h1 h2
      by_cases hab : a.toNat < b.toNat
      · have hba : ¬ b.toNat < a.toNat := by omega
        simp [hab, hba] at h1 h2
      · by_cases hba : b.toNat < a.toNat
        · simp [hab, hba] at h1
        · simp only [if_neg hab, if_neg hba] at h1 h2
          have hn : a.toNat = b.toNat := by omega
          have hc : a = b := Char.ext (UInt32.ext hn)
          rw [hc, ih bs' h1 h2]

theorem strLe_total : ∀ a b : String, strLe a b = false → strLe b a = true :=
  fun a b h => lexLe_total a.data b.data h

theorem lexLe_trans : ∀ as bs cs : List Char,
    lexLe as bs = true → lexLe bs cs = true → lexLe as cs = true := by
  intro as
  induction as with
  | nil => intro bs cs _ _; simp [lexLe]
  | cons a as ih =>
    intro bs cs h1 h2
    cases bs with
    | nil => simp [lexLe] at h1
    | cons b bs' =>
      cases cs with
      | nil => simp [lexLe] at h2
      | cons c cs' =>
        simp only [lexLe] at h1 h2 ⊢
        by_cases hab : a.toNat < b.toNat
        · by_cases hbc : b.toNat < c.toNat
          · have hac : a.toNat < c.toNat := by omega
            simp [hac]
          · by_cases hcb : c.toNat < b.toNat
            · simp [hbc, hcb] at h2
            · have hac : a.toNat < c.toNat := by omega
              simp [hac]
        · by_cases hba : b.toNat < a.toNat
          · simp [hab, hba] at h1
          · by_cases hbc : b.toNat < c.toNat
            · have hac : a.toNat < c.toNat := by omega
              simp [hac]
            · by_cases hcb : c.toNat < b.toNat
              · simp [hbc, hcb] at h2
              · have hac : ¬ a.toNat < c.toNat := by omega
                have hca : ¬ c.toNat < a.toNat := by omega
                simp only [if_neg hab, if_neg hba] at h1
                simp only [if_neg hbc, if_neg hcb] at h2
                simp only [if_neg hac, if_neg hca]
                exact ih bs' cs' h1 h2

theorem strLe_trans : ∀ a b c : String,
    strLe a b = true → strLe b c = true → strLe a c = true :=
  fun a b c h1 h2 => lexLe_trans a.data b.data c.data h1 h2

theorem strLe_antisymm : ∀ a b : String, strLe a b = true → strLe b a = true → a = b := by
  intro a b h1 h2
  have hd : a.data = b.data := lexLe_antisymm a.data b.data h1 h2
  cases a; cases b; simp_all

/-! ### Lemmas on the orchestrator building blocks -/

theorem serializeAll_of_mem_nil {rs : List (List DocItem)} (h : [] ∈ rs) :
    serializeAll rs = none := by
  induction rs with
  | nil => simp at h
  | cons r rs ih =>
    rcases List.mem_cons.mp h with h | h
    · rw [← h]; simp [serializeAll, serializeResults]
    · simp only [serializeAll, ih h]
      cases serializeResults r <;> rfl

theorem serializeAll_mem {rs : List (List DocItem)} {vs : List PDFSearchResult}
    (h : serializeAll rs = some vs) :
    ∀ v ∈ vs, ∃ r ∈ rs, serializeResults r = some v := by
  induction rs generalizing vs with
  | nil =>
    simp [serializeAll] at h
    subst h; simp
  | cons r rs ih =>
    simp only [serializeAll] at h
    cases hr : serializeResults r with
    | none => rw [hr] at h; exact absurd h (by simp)
    | some x =>
      rw [hr] at h
      cases hrest : serializeAll rs with
      | none => rw [hrest] at h; exact absurd h (by simp)
      | some xs =>
        rw [hrest] at h
        simp only [Option.some.injEq] at h
        subst h
        intro v hv
        rcases List.mem_cons.mp hv with hv | hv
        · exact ⟨r, by simp, by rw [hr, hv]⟩
        · obtain ⟨r', hr', hser⟩ := ih hrest v hv
          exact ⟨r', by simp [hr'], hser⟩

theorem serializeAll_isSome {rs : List (List DocItem)} (h : ∀ r ∈ rs, r ≠ []) :
    ∃ vs, serializeAll rs = some vs := by
  induction rs with
  | nil => exact ⟨[], rfl⟩
  | cons r rs ih =>
    obtain ⟨vs, hvs⟩ := ih (fun r hr => h r (by simp [hr]))
    have hr : r ≠ [] := h r (by simp)
    cases hr' : r with
    | nil => exact absurd hr' hr
    | cons d ds =>
      subst hr'
      simp only [serializeAll, serializeResults, hvs]
      exact ⟨_, rfl⟩

theorem allOk_error_of_mem {rs : List (Except String α)} {e : String}
    (h : Except.error e ∈ rs) : ∃ e', allOk rs = .error e' := by
  induction rs with
  | nil => simp at h
  | cons r rest ih =>
    cases r with
    | error e' => exact ⟨e', rfl⟩
    | ok x =>
      rcases List.mem_cons.mp h with h | h
      · exact absurd h (by simp)
      · obtain ⟨e', he'⟩ := ih h
        exact ⟨e', by simp [allOk, he']⟩

theorem allOk_ok_of_forall {rs : List (Except String α)}
    (h : ∀ r ∈ rs, ∃ x, r = .ok x) : ∃ xs, allOk rs = .ok xs := by
  induction rs with
  | nil => exact ⟨[], rfl⟩
  | cons r rest ih =>
    obtain ⟨x, hx⟩ := h r (by simp)
    obtain ⟨xs, hxs⟩ := ih (fun r hr => h r (by simp [hr]))
    subst hx
    exact ⟨x :: xs, by simp [allOk, hxs]⟩

theorem allOk_mem_ok {rs : List (Except String α)} {xs : List α}
    (h : allOk rs = .ok xs) : ∀ x ∈ xs, Except.ok x ∈ rs := by
  induction rs generalizing xs with
  | nil =>
    simp only [allOk] at h
    cases h; simp
  | cons r rest ih =>
    cases r with
    | error e => simp [allOk] at h
    | ok y =>
      simp only [allOk] at h
      cases hrest : allOk rest with
      | error e => rw [hrest] at h; simp at h
      | ok ys =>
        rw [hrest] at h
        simp only [Except.ok.injEq] at h
        subst h
        intro x hx
        rcases List.mem_cons.mp hx with hx | hx
        · simp [hx]
        · simp [ih hrest x hx]

/-- Unfolding of `findRelevantPages` on a document of more than 50 pages. -/
theorem findRelevantPages_big (env : Env) (docs : List Chunk)
    (q url : String) (store : MemStore) (h : 50 < docs.length) :
    findRelevantPages env docs q url store =
      ((findRelevantPages env (docs.take 50) q url store).1 ++
        (findRelevantPages env (docs.drop 50) q url
          (findRelevantPages env (docs.take 50) q url store).2.1).1,
       (findRelevantPages env (docs.drop 50) q url
         (findRelevantPages env (docs.take 50) q url store).2.1).2.1,
       (findRelevantPages env (docs.take 50) q url store).2.2 ++
        (findRelevantPages env (docs.drop 50) q url
          (findRelevantPages env (docs.take 50) q url store).2.1).2.2) := by
  rw [findRelevantPages, dif_pos h]

/-- Unfolding of `findRelevantPages` on a document of at most 50 pages. -/
theorem findRelevantPages_small (env : Env) (docs : List Chunk)
    (q url : String) (store : MemStore) (h : ¬ 50 < docs.length) :
    findRelevantPages env docs q url store =
      (retrievePdfEmbeddings env url q true
         (storePdfEmbeddings env url docs true store).2.1,
       (storePdfEmbeddings env url docs true store).2.1,
       (storePdfEmbeddings env url docs true store).2.2) := by
  rw [findRelevantPages, dif_neg h]

/-- If the in-memory similarity engine never comes back empty, neither does
`findRelevantPages`. -/
theorem findRelevantPages_fst_ne_nil_aux (env : Env)
    (hmem : ∀ s k st, env.searchMem s k st ≠ []) :
    ∀ (n : Nat) (docs : List Chunk), docs.length ≤ n →
      ∀ (q url : String) (store : MemStore),
        (findRelevantPages env docs q url store).1 ≠ [] := by
  intro n
  induction n with
  | zero =>
    intro docs hlen q url store
    have h : ¬ 50 < docs.length := by omega
    rw [findRelevantPages_small env docs q url store h]
    simp only [retrievePdfEmbeddings, if_pos rfl]
    exact hmem _ _ _
  | succ n ih =>
    intro docs hlen q url store
    by_cases hbig : 50 < docs.length
    · rw [findRelevantPages_big env docs q url store hbig]
      have h1 := ih (docs.take 50)
        (by simp only [List.length_take]; omega) q url store
      simp only [ne_eq, List.append_eq_nil]
      intro hcontra
      exact h1 hcontra.1
    · rw [findRelevantPages_small env docs q url store hbig]
      simp only [retrievePdfEmbeddings, if_pos rfl]
      exact hmem _ _ _

theorem findRelevantPages_fst_ne_nil (env : Env)
    (hmem : ∀ s k st, env.searchMem s k st ≠ [])
    (docs : List Chunk) (q url : String) (store : MemStore) :
    (findRelevantPages env docs q url store).1 ≠ [] :=
  findRelevantPages_fst_ne_nil_aux env hmem docs.length docs le_rfl q url store

/-- Under a successful fetch oracle and a never-empty similarity engine,
`processPdf` always resolves with a non-empty document array. -/
theorem processPdf_ok (env : Env)
    (hload : ∀ u, ∃ ds, env.loadPdf u = .ok ds)
    (hmem : ∀ s k st, env.searchMem s k st ≠ [])
    (pdf : PDF) (q : String) (store : MemStore) :
    ∃ ds, (processPdf env pdf q store).1 = .ok ds ∧ ds ≠ [] := by
  unfold processPdf
  by_cases hdur : 0 < (env.retrieveDurable pdf.url q).length
  · refine ⟨serializeDocuments (env.retrieveDurable pdf.url q) pdf,
      by simp [hdur], ?_⟩
    simp only [serializeDocuments, ne_eq, List.map_eq_nil]
    intro hcontra
    rw [hcontra] at hdur
    simp at hdur
  · obtain ⟨ds, hds⟩ := hload pdf.url
    refine ⟨serializeDocuments (findRelevantPages env ds q pdf.url store).1 pdf,
      by simp [hdur, hds], ?_⟩
    simp only [serializeDocuments, ne_eq, List.map_eq_nil]
    exact findRelevantPages_fst_ne_nil env hmem ds q pdf.url store

/-- Every per-document outcome of the fan-out is a non-empty success under
the same hypotheses. -/
theorem runAll_forall_ok (env : Env)
    (hload : ∀ u, ∃ ds, env.loadPdf u = .ok ds)
    (hmem : ∀ s k st, env.searchMem s k st ≠ [])
    (q : String) :
    ∀ (pdfs : List PDF) (store : MemStore),
      ∀ r ∈ (runAll env q pdfs store).1, ∃ ds, r = .ok ds ∧ ds ≠ [] := by
  intro pdfs
  induction pdfs with
  | nil => intro store r hr; simp [runAll] at hr
  | cons pdf rest ih =>
    intro store r hr
    simp only [runAll] at hr
    rcases List.mem_cons.mp hr with hr | hr
    · obtain ⟨ds, hds, hne⟩ := processPdf_ok env hload hmem pdf q store
      exact ⟨ds, hr ▸ hds, hne⟩
    · exact ih _ r hr

/-! ### Lemmas on the recent-searches list -/

theorem addToRecentSearches_length (q : String) (l : List String) :
    (addToRecentSearches q l).length ≤ 10 :=
  List.length_take_le 10 _

theorem addToRecentSearches_nodup (q : String) (l : List String) (h : l.Nodup) :
    (addToRecentSearches q l).Nodup := by
  unfold addToRecentSearches
  refine List.Nodup.sublist (List.take_sublist _ _) ?_
  refine List.nodup_cons.mpr ⟨?_, h.filter _⟩
  simp [List.mem_filter]

theorem pushAll_go (qs : List String) :
    ∀ l : List String, l.Nodup → l.length ≤ 10 →
      (qs.foldl (fun l q => addToRecentSearches q l) l).Nodup ∧
        (qs.foldl (fun l q => addToRecentSearches q l) l).length ≤ 10 := by
  induction qs with
  | nil => intro l h1 h2; exact ⟨h1, h2⟩
  | cons q qs ih =>
    intro l h1 _
    simp only [List.foldl_cons]
    exact ih _ (addToRecentSearches_nodup q l h1) (addToRecentSearches_length q l)

theorem pushAll_of_nodup (qs : List String) (h : qs.Nodup) :
    pushAll qs = qs.reverse.take 10 := by
  induction qs using List.reverseRecOn with
  | nil => simp [pushAll]
  | append_singleton qs q ih =>
    have hqs : qs.Nodup := ((List.nodup_append).mp h).1
    have hq : q ∉ qs := by
      rw [List.nodup_append] at h
      intro hmm
      exact h.2.2 hmm (by simp)
    unfold pushAll at ih ⊢
    rw [List.foldl_append]
    simp only [List.foldl_cons, List.foldl_nil]
    rw [ih hqs]
    unfold addToRecentSearches
    have hfilter : (qs.reverse.take 10).filter (fun x => x != q) = qs.reverse.take 10 := by
      rw [List.filter_eq_self]
      intro x hx
      have hxq : x ∈ qs := by
        have hx' := List.mem_of_mem_take hx
        simpa using hx'
      simp only [bne_iff_ne, ne_eq]
      intro heq
      rw [heq] at hxq
      exact hq hxq
    rw [hfilter, List.reverse_append]
    have hsingle : ([q] : List String).reverse ++ qs.reverse = q :: qs.reverse := by simp
    rw [hsingle]
    have hstep : (q :: qs.reverse.take 10).take 10 = q :: (qs.reverse.take 10).take 9 := rfl
    have hstep2 : (q :: qs.reverse).take 10 = q :: qs.reverse.take 9 := rfl
    rw [hstep, hstep2, List.take_take]
    norm_num

/-! ### Branch unfoldings of `processQuery` -/

theorem processQuery_searchFail (env : Env) (q : String) (st : PState) (e : String)
    (hs : env.searchPDFs q = .error e) :
    processQuery env q st =
      (.ok [], { st with recent := addToRecentSearches q st.recent },
        [Call.recentPush q, Call.searchProvider q]) := by
  simp only [processQuery, searchAndValidatePDFs, hs]
  rfl

theorem processQuery_cacheError (env : Env) (q : String) (st : PState)
    (hits : List SearchHit) (e : String)
    (hs : env.searchPDFs q = .ok hits)
    (hg : env.redisGet (queryCacheKey env q) = .error e) :
    processQuery env q st =
      (.error e, { st with recent := addToRecentSearches q st.recent },
        [Call.recentPush q, Call.searchProvider q, Call.validate,
          Call.cacheGet (queryCacheKey env q)]) := by
  simp only [processQuery, searchAndValidatePDFs, hs, hg]
  rfl

theorem processQuery_hit_parse (env : Env) (q : String) (st : PState)
    (hits : List SearchHit) (cached : String) (v : List PDFSearchResult)
    (hs : env.searchPDFs q = .ok hits)
    (hg : env.redisGet (queryCacheKey env q) = .ok (some cached))
    (hp : env.parseCached cached = .ok v) :
    processQuery env q st =
      (.ok v, { st with recent := addToRecentSearches q st.recent },
        [Call.recentPush q, Call.searchProvider q, Call.validate,
          Call.cacheGet (queryCacheKey env q)]) := by
  simp only [processQuery, searchAndValidatePDFs, hs, hg, hp]
  rfl

theorem processQuery_hit_parseFail (env : Env) (q : String) (st : PState)
    (hits : List SearchHit) (cached : String) (e : String)
    (hs : env.searchPDFs q = .ok hits)
    (hg : env.redisGet (queryCacheKey env q) = .ok (some cached))
    (hp : env.parseCached cached = .error e) :
    processQuery env q st =
      (.error e, { st with recent := addToRecentSearches q st.recent },
        [Call.recentPush q, Call.searchProvider q, Call.validate,
          Call.cacheGet (queryCacheKey env q)]) := by
  simp only [processQuery, searchAndValidatePDFs, hs, hg, hp]
  rfl

theorem processQuery_miss_allFail (env : Env) (q : String) (st : PState)
    (hits : List SearchHit) (e : String)
    (hs : env.searchPDFs q = .ok hits)
    (hg : env.redisGet (queryCacheKey env q) = .ok none)
    (hall : allOk (runAll env q ((validatePDFResults env hits).map toPDF)
      st.memStore).1 = .error e) :
    processQuery env q st =
      (.error e,
        ⟨(runAll env q ((validatePDFResults env hits).map toPDF) st.memStore).2.1,
          addToRecentSearches q st.recent⟩,
        [Call.recentPush q, Call.searchProvider q, Call.validate,
          Call.cacheGet (queryCacheKey env q)] ++
          ((runAll env q ((validatePDFResults env hits).map toPDF)
            st.memStore).2.2.map Call.pdfOp)) := by
  simp only [processQuery, searchAndValidatePDFs, hs, hg, hall]
  rfl

theorem processQuery_miss_typeError (env : Env) (q : String) (st : PState)
    (hits : List SearchHit) (results : List (List DocItem))
    (hs : env.searchPDFs q = .ok hits)
    (hg : env.redisGet (queryCacheKey env q) = .ok none)
    (hall : allOk (runAll env q ((validatePDFResults env hits).map toPDF)
      st.memStore).1 = .ok results)
    (hser : serializeAll results = none) :
    processQuery env q st =
      (.error typeErrorMsg,
        ⟨(runAll env q ((validatePDFResults env hits).map toPDF) st.memStore).2.1,
          addToRecentSearches q st.recent⟩,
        [Call.recentPush q, Call.searchProvider q, Call.validate,
          Call.cacheGet (queryCacheKey env q)] ++
          ((runAll env q ((validatePDFResults env hits).map toPDF)
            st.memStore).2.2.map Call.pdfOp)) := by
  simp only [processQuery, searchAndValidatePDFs, hs, hg, hall, hser]
  rfl

theorem processQuery_miss_ok (env : Env) (q : String) (st : PState)
    (hits : List SearchHit) (results : List (List DocItem))
    (ser : List PDFSearchResult)
    (hs : env.searchPDFs q = .ok hits)
    (hg : env.redisGet (queryCacheKey env q) = .ok none)
    (hall : allOk (runAll env q ((validatePDFResults env hits).map toPDF)
      st.memStore).1 = .ok results)
    (hser : serializeAll results = some ser) :
    processQuery env q st =
      (.ok ser,
        ⟨(runAll env q ((validatePDFResults env hits).map toPDF) st.memStore).2.1,
          addToRecentSearches q st.recent⟩,
        [Call.recentPush q, Call.searchProvider q, Call.validate,
          Call.cacheGet (queryCacheKey env q)] ++
          ((runAll env q ((validatePDFResults env hits).map toPDF)
            st.memStore).2.2.map Call.pdfOp) ++
          [Call.cacheSet (queryCacheKey env q)]) := by
  simp only [processQuery, searchAndValidatePDFs, hs, hg, hall, hser]
  rfl

/-! ### Claim theorems -/

/-- C8: for every candidate document URL and query, if the durable-tier
retrieval returns a non-empty list, `processPdf` returns the serialization
of exactly that list, leaves the memory store untouched, and performs no
fetching, chunking, or embedding for the document — the durable hit is a
complete substitute for reprocessing, with no staleness check. -/
theorem processPdf_durable_hit (env : Env) (pdf : PDF) (q : String)
    (store : MemStore) (h : env.retrieveDurable pdf.url q ≠ []) :
    processPdf env pdf q store =
      (.ok (serializeDocuments (env.retrieveDurable pdf.url q) pdf), store,
        [PdfOp.durableQuery pdf.url]) := by
  unfold processPdf
  rw [if_pos (List.length_pos.mpr h)]

/-- Witness for C8: in `envDurableHit` the durable tier holds a passage for
`http://a.pdf`, and `processPdf` returns exactly its serialization with no
fetch/chunk/embed operation. -/
theorem processPdf_durable_hit_witness :
    envDurableHit.retrieveDurable (toPDF hitA).url "binary search" ≠ [] ∧
      processPdf envDurableHit (toPDF hitA) "binary search" [] =
        (.ok (serializeDocuments
          (envDurableHit.retrieveDurable (toPDF hitA).url "binary search")
          (toPDF hitA)), [], [PdfOp.durableQuery (toPDF hitA).url]) :=
  ⟨by decide, processPdf_durable_hit envDurableHit (toPDF hitA) "binary search" []
    (by decide)⟩

/-- C10: after any sequence of pushes to the recent-queries list (starting
from the empty list), the list holds at most 10 entries and has no
duplicates; pushing distinct queries leaves exactly the 10 most recent,
most-recent-first (so 15 distinct pushes leave the last 10). -/
theorem recentSearches_bound (qs : List String) :
    (pushAll qs).length ≤ 10 ∧ (pushAll qs).Nodup ∧
      (qs.Nodup → pushAll qs = qs.reverse.take 10) :=
  ⟨(pushAll_go qs [] (by simp) (by simp)).2,
    (pushAll_go qs [] (by simp) (by simp)).1,
    fun h => pushAll_of_nodup qs h⟩

/-- Witness for C10: pushing the 15 distinct queries of `qs15` leaves
exactly the 10 most recent, most-recent-first. -/
theorem recentSearches_bound_witness :
    qs15.Nodup ∧ qs15.length = 15 ∧
      pushAll qs15 = ["o", "n", "m", "l", "k", "j", "i", "h", "g", "f"] := by
  refine ⟨by decide, by decide, ?_⟩
  rw [(recentSearches_bound qs15).2.2 (by decide)]
  decide

/-- C5: processing a 120-page document directly through
`findRelevantPages` yields the same scored passages, in the same
concatenation, as processing it pre-split into its three 50/50/20-page
groups, each routed through the same store-and-retrieve path with the
sub-results concatenated (list equality, which subsumes the claim's
order-independent set comparison). -/
theorem findRelevantPages_fanout (env : Env) (q url : String)
    (store : MemStore) (docs : List Chunk) (h : docs.length = 120) :
    (findRelevantPages env docs q url store).1 =
      (findRelevantPages env (docs.take 50) q url store).1 ++
        (findRelevantPages env ((docs.drop 50).take 50) q url
          (findRelevantPages env (docs.take 50) q url store).2.1).1 ++
        (findRelevantPages env (docs.drop 100) q url
          (findRelevantPages env ((docs.drop 50).take 50) q url
            (findRelevantPages env (docs.take 50) q url store).2.1).2.1).1 := by
  have h50 : 50 < docs.length := by omega
  have hd2 : 50 < (docs.drop 50).length := by
    simp only [List.length_drop, h]; omega
  rw [findRelevantPages_big env docs q url store h50]
  rw [findRelevantPages_big env (docs.drop 50) q url
    (findRelevantPages env (docs.take 50) q url store).2.1 hd2]
  simp only [List.drop_drop]
  norm_num [List.append_assoc]

/-- Witness for C5 at a concrete 120-page document. -/
theorem findRelevantPages_fanout_witness :
    docs120.length = 120 ∧
      (findRelevantPages baseEnv docs120 "q" "u" []).1 =
        (findRelevantPages baseEnv (docs120.take 50) "q" "u" []).1 ++
          (findRelevantPages baseEnv ((docs120.drop 50).take 50) "q" "u"
            (findRelevantPages baseEnv (docs120.take 50) "q" "u" []).2.1).1 ++
          (findRelevantPages baseEnv (docs120.drop 100) "q" "u"
            (findRelevantPages baseEnv ((docs120.drop 50).take 50) "q" "u"
              (findRelevantPages baseEnv (docs120.take 50) "q" "u" []).2.1).2.1).1 :=
  ⟨by simp [docs120], findRelevantPages_fanout baseEnv "q" "u" [] docs120
    (by simp [docs120])⟩

/-- C9: on a cache miss, every `PDFSearchResult` that `processQuery`
produces has its `relevantPages` ordered non-decreasing by page number,
regardless of the similarity-score order in which the passages were
retrieved (top-K selection is by score; `serializeResults` re-sorts by page
number for presentation). -/
theorem processQuery_relevantPages_sorted (env : Env) (q : String) (st : PState)
    (hget : env.redisGet (queryCacheKey env q) = .ok none) :
    ∀ v, (processQuery env q st).1 = .ok v →
      ∀ r ∈ v, r.relevantPages.Pairwise (fun a b => a.pageNumber ≤ b.pageNumber) := by
  intro v hv r hr
  cases hs : env.searchPDFs q with
  | error e =>
    rw [processQuery_searchFail env q st e hs] at hv
    simp only [Except.ok.injEq] at hv
    subst hv
    simp at hr
  | ok hits =>
    cases hall : allOk (runAll env q ((validatePDFResults env hits).map toPDF)
        st.memStore).1 with
    | error e =>
      rw [processQuery_miss_allFail env q st hits e hs hget hall] at hv
      simp at hv
    | ok results =>
      cases hser : serializeAll results with
      | none =>
        rw [processQuery_miss_typeError env q st hits results hs hget hall hser] at hv
        simp at hv
      | some ser =>
        rw [processQuery_miss_ok env q st hits results ser hs hget hall hser] at hv
        simp only [Except.ok.injEq] at hv
        subst hv
        obtain ⟨d, _, hd⟩ := serializeAll_mem hser r hr
        cases d with
        | nil => simp [serializeResults] at hd
        | cons d0 ds =>
          simp only [serializeResults, Option.some.injEq] at hd
          rw [← hd]
          have hp := sortByLe_pairwise pageLe
            (fun a b hab => by simp [pageLe] at hab ⊢; omega)
            (fun a b c h1 h2 => by simp [pageLe] at h1 h2 ⊢; omega)
            ((d0 :: ds).map toRelevantPage)
          exact hp.imp (fun hxy => by simpa [pageLe] using hxy)

/-- Witness for C9: the durable tier returns the higher-scored page-3
passage before the page-1 passage, yet the produced result lists page 1
before page 3 (non-decreasing page order). -/
theorem processQuery_relevantPages_sorted_witness :
    envScoreOrder.redisGet (queryCacheKey envScoreOrder "pages") = .ok none ∧
      (processQuery envScoreOrder "pages" st0).1 = .ok [resScoreOrder] ∧
      resScoreOrder.relevantPages.Pairwise
        (fun a b => a.pageNumber ≤ b.pageNumber) := by
  have hout : (processQuery envScoreOrder "pages" st0).1 = .ok [resScoreOrder] := by
    rfl
  exact ⟨rfl, hout,
    processQuery_relevantPages_sorted envScoreOrder "pages" st0 rfl [resScoreOrder]
      hout resScoreOrder (by simp)⟩

/-- C4 counterexample: in `envCacheHit` the derived key has a query-cache
entry, yet the run has already invoked the external search provider and
per-candidate validation when it reaches the cache check — refuting "never
invokes the external search provider or per-candidate validation" on a hit
(in the code, `Searched`/`Validated` precede `CacheChecked`). -/
theorem cacheHit_still_searches_counterexample :
    envCacheHit.redisGet (queryCacheKey envCacheHit "what is ai") =
        .ok (some "cached entry") ∧
      Call.searchProvider "what is ai" ∈
        (processQuery envCacheHit "what is ai" st0).2.2 ∧
      Call.validate ∈ (processQuery envCacheHit "what is ai" st0).2.2 := by
  refine ⟨rfl, ?_, ?_⟩ <;>
    rw [processQuery_hit_parse envCacheHit "what is ai" st0 [hitA] "cached entry"
      [cachedResult] rfl rfl rfl] <;> simp

/-- C4 amended: when the derived key has a query-cache entry (and it
parses), `processQuery` returns the cached result and performs no
per-document processing — but the cache check happens AFTER the search
provider call and per-candidate validation, which do run. -/
theorem cacheHit_skips_perDocument (env : Env) (q : String) (st : PState)
    (hits : List SearchHit) (cached : String) (v : List PDFSearchResult)
    (hs : env.searchPDFs q = .ok hits)
    (hg : env.redisGet (queryCacheKey env q) = .ok (some cached))
    (hp : env.parseCached cached = .ok v) :
    (processQuery env q st).1 = .ok v ∧
      (∀ op, Call.pdfOp op ∉ (processQuery env q st).2.2) ∧
      Call.searchProvider q ∈ (processQuery env q st).2.2 := by
  rw [processQuery_hit_parse env q st hits cached v hs hg hp]
  refine ⟨rfl, ?_, by simp⟩
  intro op
  simp

/-- Witness for C4 (amended) at the concrete cache-hit environment. -/
theorem cacheHit_skips_perDocument_witness :
    envCacheHit.searchPDFs "what is ai" = .ok [hitA] ∧
      envCacheHit.redisGet (queryCacheKey envCacheHit "what is ai") =
        .ok (some "cached entry") ∧
      envCacheHit.parseCached "cached entry" = .ok [cachedResult] ∧
      ((processQuery envCacheHit "what is ai" st0).1 = .ok [cachedResult] ∧
        (∀ op, Call.pdfOp op ∉ (processQuery envCacheHit "what is ai" st0).2.2) ∧
        Call.searchProvider "what is ai" ∈
          (processQuery envCacheHit "what is ai" st0).2.2) :=
  ⟨rfl, rfl, rfl,
    cacheHit_skips_perDocument envCacheHit "what is ai" st0 [hitA] "cached entry"
      [cachedResult] rfl rfl rfl⟩

/-- C3 counterexample: on the empty query, the live `processQuery`
(src/actions/search.ts) still pushes to the recent-searches list, invokes
the search provider, and (the search step having succeeded) reads the query
cache — refuting "returns an empty list and invokes no collaborator at
all". -/
theorem emptyQuery_calls_counterexample :
    Call.recentPush "" ∈ (processQuery baseEnv "" st0).2.2 ∧
      Call.searchProvider "" ∈ (processQuery baseEnv "" st0).2.2 ∧
      Call.cacheGet (queryCacheKey baseEnv "") ∈
        (processQuery baseEnv "" st0).2.2 := by
  refine ⟨?_, ?_, ?_⟩ <;>
    rw [show (processQuery baseEnv "" st0).2.2 =
      [Call.recentPush "", Call.searchProvider "", Call.validate,
        Call.cacheGet (queryCacheKey baseEnv ""),
        Call.cacheSet (queryCacheKey baseEnv "")] from rfl] <;> simp

/-- C3 amended: the live `processQuery` has no empty-input short-circuit:
EVERY call — empty and whitespace-only queries included — first pushes the
query to the recent-searches list and then invokes the search provider.
(The `processQuery` variant in src/unnamed/part_000 does check
`!query.trim()` first and return `[]` with no collaborator calls; the
version wired to the app does not.) -/
theorem processQuery_always_calls (env : Env) (q : String) (st : PState) :
    Call.recentPush q ∈ (processQuery env q st).2.2 ∧
      Call.searchProvider q ∈ (processQuery env q st).2.2 := by
  cases hs : env.searchPDFs q with
  | error e => rw [processQuery_searchFail env q st e hs]; simp
  | ok hits =>
    cases hg : env.redisGet (queryCacheKey env q) with
    | error e => rw [processQuery_cacheError env q st hits e hs hg]; simp
    | ok o =>
      cases o with
      | some cached =>
        cases hp : env.parseCached cached with
        | error e =>
          rw [processQuery_hit_parseFail env q st hits cached e hs hg hp]; simp
        | ok v =>
          rw [processQuery_hit_parse env q st hits cached v hs hg hp]; simp
      | none =>
        cases hall : allOk (runAll env q ((validatePDFResults env hits).map toPDF)
            st.memStore).1 with
        | error e =>
          rw [processQuery_miss_allFail env q st hits e hs hg hall]; simp
        | ok results =>
          cases hser : serializeAll results with
          | none =>
            rw [processQuery_miss_typeError env q st hits results hs hg hall hser]
            simp
          | some ser =>
            rw [processQuery_miss_ok env q st hits results ser hs hg hall hser]
            simp

/-- C2 counterexample: three validated candidates; fetching document #2
throws while #1 and #3 are served from the durable tier — and
`processQuery` rejects with the fetch error instead of returning non-empty
results for #1 and #3 and omitting #2. -/
theorem doc2FetchFail_rejects_counterexample :
    (processQuery envDoc2Fails "graph theory" st0).1 =
      .error "Failed to load PDF from URL: boom" := by
  rfl

/-- C2 amended: one document's fetch failure is NOT isolated from its
siblings: with three validated candidates where document #2's durable
retrieval is empty and its fetch throws, the `Promise.all` fan-out rejects
and the whole `processQuery` call throws (embedding and durable-store
failures, by contrast, are caught inside `processPdf`). -/
theorem doc2FetchFail_rejects (env : Env) (q : String) (st : PState)
    (p1 p2 p3 : SearchHit) (e : String)
    (hs : env.searchPDFs q = .ok [p1, p2, p3])
    (hv1 : env.validOk p1.link = true)
    (hv2 : env.validOk p2.link = true)
    (hv3 : env.validOk p3.link = true)
    (hg : env.redisGet (queryCacheKey env q) = .ok none)
    (hdur : env.retrieveDurable p2.link q = [])
    (hload : env.loadPdf p2.link = .error e) :
    ∃ msg, (processQuery env q st).1 = .error msg := by
  have hpdfs : (validatePDFResults env [p1, p2, p3]).map toPDF =
      [toPDF p1, toPDF p2, toPDF p3] := by
    simp [validatePDFResults, hv1, hv2, hv3]
  have h2 : (processPdf env (toPDF p2) q
      (processPdf env (toPDF p1) q st.memStore).2.1).1 =
      .error ("Failed to load PDF from URL: " ++ e) := by
    have hd2 : env.retrieveDurable (toPDF p2).url q = [] := hdur
    have hl2 : env.loadPdf (toPDF p2).url = .error e := hload
    unfold processPdf
    rw [hd2]
    simp [hl2]
  have hmem2 : Except.error ("Failed to load PDF from URL: " ++ e) ∈
      (runAll env q [toPDF p1, toPDF p2, toPDF p3] st.memStore).1 := by
    simp only [runAll, List.mem_cons]
    exact Or.inr (Or.inl h2.symm)
  obtain ⟨e', he'⟩ := allOk_error_of_mem hmem2
  have hall : allOk (runAll env q ((validatePDFResults env [p1, p2, p3]).map toPDF)
      st.memStore).1 = .error e' := by
    rw [hpdfs]; exact he'
  exact ⟨e', by rw [processQuery_miss_allFail env q st [p1, p2, p3] e' hs hg hall]⟩

/-- Witness for C2 (amended) at the concrete three-candidate environment. -/
theorem doc2FetchFail_rejects_witness :
    envDoc2Fails.searchPDFs "graph theory" = .ok [hitA, hitB, hitC] ∧
      envDoc2Fails.retrieveDurable hitB.link "graph theory" = [] ∧
      envDoc2Fails.loadPdf hitB.link = .error "boom" ∧
      ∃ msg, (processQuery envDoc2Fails "graph theory" st0).1 = .error msg :=
  ⟨rfl, rfl, rfl,
    doc2FetchFail_rejects envDoc2Fails "graph theory" st0 hitA hitB hitC "boom"
      rfl rfl rfl rfl rfl rfl rfl⟩

/-- C1 counterexample: a cache serialization failure — the cached entry for
the derived key fails `JSON.parse` — crosses the `processQuery` boundary as
an exception instead of resolving to a list, refuting "never throws under
the error taxonomy" (the taxonomy lists cache serialization failure as
non-fatal). -/
theorem processQuery_throws_counterexample :
    (processQuery envCacheBad "any query" st0).1 =
      .error "SyntaxError: unexpected token in JSON" := by
  rfl

/-- C1 amended: `processQuery` resolves to a (possibly empty) list under
empty input, search failure, per-candidate validation failure, and
per-document embedding/durable-store failure — PROVIDED every query-cache
read and parse succeeds, every document fetch succeeds, and every
similarity search returns at least one passage.  A per-document fetch/parse
failure, a cache read/parse failure, or an empty per-document result list
instead propagates an exception across the boundary (see the
counterexample). -/
theorem processQuery_resolves (env : Env) (q : String) (st : PState)
    (hget : ∀ k, ∃ o, env.redisGet k = .ok o)
    (hparse : ∀ s, ∃ v, env.parseCached s = .ok v)
    (hload : ∀ u, ∃ ds, env.loadPdf u = .ok ds)
    (hmem : ∀ s k l, env.searchMem s k l ≠ []) :
    ∃ v, (processQuery env q st).1 = .ok v := by
  cases hs : env.searchPDFs q with
  | error e => exact ⟨[], by rw [processQuery_searchFail env q st e hs]⟩
  | ok hits =>
    obtain ⟨o, ho⟩ := hget (queryCacheKey env q)
    cases o with
    | some cached =>
      obtain ⟨v, hv⟩ := hparse cached
      exact ⟨v, by rw [processQuery_hit_parse env q st hits cached v hs ho hv]⟩
    | none =>
      have hforall := runAll_forall_ok env hload hmem q
        ((validatePDFResults env hits).map toPDF) st.memStore
      obtain ⟨results, hres⟩ := allOk_ok_of_forall
        (fun r hr => (hforall r hr).imp (fun ds hds => hds.1))
      have hne : ∀ r ∈ results, r ≠ [] := by
        intro r hr
        obtain ⟨ds, hds, hdsne⟩ := hforall (Except.ok r) (allOk_mem_ok hres r hr)
        rw [Except.ok.injEq] at hds
        rw [hds]
        exact hdsne
      obtain ⟨ser, hser⟩ := serializeAll_isSome hne
      exact ⟨ser, by
        rw [processQuery_miss_ok env q st hits results ser hs ho hres hser]⟩

/-- Witness for C1 (amended): in `envAlwaysFinds` the cache reads cleanly,
fetches succeed and the similarity engine always finds a passage, so the
call resolves. -/
theorem processQuery_resolves_witness :
    envAlwaysFinds.redisGet (queryCacheKey envAlwaysFinds "what is lean") =
        .ok none ∧
      envAlwaysFinds.loadPdf "http://a.pdf" = .ok [chunk0] ∧
      envAlwaysFinds.searchMem "what is lean" 5 [] = [(chunkP1, 3)] ∧
      ∃ v, (processQuery envAlwaysFinds "what is lean" st0).1 = .ok v :=
  ⟨rfl, rfl, rfl,
    processQuery_resolves envAlwaysFinds "what is lean" st0
      (fun _ => ⟨none, rfl⟩) (fun _ => ⟨[], rfl⟩) (fun _ => ⟨[chunk0], rfl⟩)
      (fun _ _ _ => List.cons_ne_nil _ _)⟩

/-- C7: if the per-document fan-out completes but some document's scored
list is empty, the serialization step reads `results[0]` of that empty
array and `processQuery` throws the `TypeError` at its public boundary,
instead of omitting the document or returning a list — the unchecked index
is reachable. -/
theorem emptyDocResult_typeError (env : Env) (q : String) (st : PState)
    (hits : List SearchHit) (results : List (List DocItem))
    (hs : env.searchPDFs q = .ok hits)
    (hg : env.redisGet (queryCacheKey env q) = .ok none)
    (hall : allOk (runAll env q ((validatePDFResults env hits).map toPDF)
      st.memStore).1 = .ok results)
    (hempty : [] ∈ results) :
    (processQuery env q st).1 = .error typeErrorMsg := by
  rw [processQuery_miss_typeError env q st hits results hs hg hall
    (serializeAll_of_mem_nil hempty)]

/-- Unfolding of `processPdf` on a durable miss with a successful fetch. -/
theorem processPdf_fresh (env : Env) (pdf : PDF) (q : String) (store : MemStore)
    (ds : List Chunk)
    (hdur : env.retrieveDurable pdf.url q = [])
    (hload : env.loadPdf pdf.url = .ok ds) :
    (processPdf env pdf q store).1 =
      .ok (serializeDocuments (findRelevantPages env ds q pdf.url store).1 pdf) := by
  unfold processPdf
  rw [hdur]
  simp [hload]

/-- Witness for C7: one candidate, durable miss, fetch succeeds, but the
similarity engine finds nothing — the document's list is empty and the call
throws the `TypeError`. -/
theorem emptyDocResult_typeError_witness :
    envEmptyDoc.searchPDFs "quantum" = .ok [hitA] ∧
      allOk (runAll envEmptyDoc "quantum"
        ((validatePDFResults envEmptyDoc [hitA]).map toPDF) st0.memStore).1 =
        .ok [[]] ∧
      ([] : List DocItem) ∈ [([] : List DocItem)] ∧
      (processQuery envEmptyDoc "quantum" st0).1 = .error typeErrorMsg := by
  have hd : envEmptyDoc.retrieveDurable (toPDF hitA).url "quantum" = [] := rfl
  have hl : envEmptyDoc.loadPdf (toPDF hitA).url = .ok [chunk0] := rfl
  have hpdf := processPdf_fresh envEmptyDoc (toPDF hitA) "quantum" [] [chunk0] hd hl
  have hfr1 : (findRelevantPages envEmptyDoc [chunk0] "quantum" (toPDF hitA).url
      ([] : MemStore)).1 = [] := by
    rw [findRelevantPages_small envEmptyDoc [chunk0] "quantum" (toPDF hitA).url []
      (by simp)]
    rfl
  rw [hfr1] at hpdf
  have hser0 : serializeDocuments [] (toPDF hitA) = [] := rfl
  rw [hser0] at hpdf
  have hrun : (runAll envEmptyDoc "quantum"
      ((validatePDFResults envEmptyDoc [hitA]).map toPDF) st0.memStore).1 =
      [(processPdf envEmptyDoc (toPDF hitA) "quantum" []).1] := rfl
  have hall : allOk (runAll envEmptyDoc "quantum"
      ((validatePDFResults envEmptyDoc [hitA]).map toPDF) st0.memStore).1 =
      .ok [[]] := by
    rw [hrun, hpdf]
    rfl
  exact ⟨rfl, hall, by simp,
    emptyDocResult_typeError envEmptyDoc "quantum" st0 [hitA] [[]] rfl rfl hall
      (by simp)⟩

/-- C6 counterexample: two queries whose analyses extract the same BAG of
six nouns in different orders (identical entities, verbs, question type and
negation) nevertheless produce different keys: the cap (`slice(0, 5)`) is
applied BEFORE the lexicographic sort, so extraction order leaks through
the cap.  With the digest slot instantiated (here as the identity map on
the serialized object) the keys differ; with the real SHA-256 they differ
unless the two distinct serialized objects collide. -/
theorem semanticKey_order_counterexample :
    (nlpSameBag (normalizeQuery "alpha")).nouns.Perm
        ((nlpSameBag (normalizeQuery "beta")).nouns) ∧
      (nlpSameBag (normalizeQuery "alpha")).entities =
        (nlpSameBag (normalizeQuery "beta")).entities ∧
      (nlpSameBag (normalizeQuery "alpha")).verbs =
        (nlpSameBag (normalizeQuery "beta")).verbs ∧
      questionType (nlpSameBag (normalizeQuery "alpha")) =
        questionType (nlpSameBag (normalizeQuery "beta")) ∧
      (nlpSameBag (normalizeQuery "alpha")).isNegative =
        (nlpSameBag (normalizeQuery "beta")).isNegative ∧
      createSemanticCacheKey nlpSameBag idHash idHash "alpha" defaultKeyOptions ≠
        createSemanticCacheKey nlpSameBag idHash idHash "beta" defaultKeyOptions := by
  refine ⟨?_, ?_, ?_, ?_, ?_, ?_⟩ <;> decide

/-- C6 amended: key derivation is deterministic at the level of the CAPPED
extraction lists: whenever the first 3 entities, first 5 nouns and first 3
verbs (in extraction order) of the two normalized queries agree as bags,
and the question type, negation flag and (identical) options agree with
semantic mode on, the derived keys are equal — each capped list is sorted
lexicographically before serialization and hashing, so order within the
caps never affects the key.  (Agreement of the full extracted bags does not
suffice; see the counterexample.) -/
theorem semanticKey_deterministic (nlp : String → NlpDoc)
    (sha256hex16 md5hex8 : String → String) (q1 q2 : String)
    (opts : SemanticKeyOptions)
    (hsem : opts.useSemanticKey = true)
    (he : ((nlp (normalizeQuery q1)).entities.take 3).Perm
      ((nlp (normalizeQuery q2)).entities.take 3))
    (hn : ((nlp (normalizeQuery q1)).nouns.take 5).Perm
      ((nlp (normalizeQuery q2)).nouns.take 5))
    (hv : ((nlp (normalizeQuery q1)).verbs.take 3).Perm
      ((nlp (normalizeQuery q2)).verbs.take 3))
    (hq : questionType (nlp (normalizeQuery q1)) =
      questionType (nlp (normalizeQuery q2)))
    (hneg : (nlp (normalizeQuery q1)).isNegative =
      (nlp (normalizeQuery q2)).isNegative) :
    createSemanticCacheKey nlp sha256hex16 md5hex8 q1 opts =
      createSemanticCacheKey nlp sha256hex16 md5hex8 q2 opts := by
  unfold createSemanticCacheKey
  simp only [hsem, if_true]
  rw [sortByLe_eq_of_perm strLe strLe_total strLe_trans strLe_antisymm he,
    sortByLe_eq_of_perm strLe strLe_total strLe_trans strLe_antisymm hn,
    sortByLe_eq_of_perm strLe strLe_total strLe_trans strLe_antisymm hv,
    hq, hneg]

/-- Witness for C6 (amended): the capped lists of `capDocA`/`capDocB` agree
as bags though ordered differently, and the derived keys coincide. -/
theorem semanticKey_deterministic_witness :
    ((nlpCapBag (normalizeQuery "x")).entities.take 3).Perm
        ((nlpCapBag (normalizeQuery "y")).entities.take 3) ∧
      ((nlpCapBag (normalizeQuery "x")).nouns.take 5).Perm
        ((nlpCapBag (normalizeQuery "y")).nouns.take 5) ∧
      ((nlpCapBag (normalizeQuery "x")).verbs.take 3).Perm
        ((nlpCapBag (normalizeQuery "y")).verbs.take 3) ∧
      createSemanticCacheKey nlpCapBag idHash idHash "x" defaultKeyOptions =
        createSemanticCacheKey nlpCapBag idHash idHash "y" defaultKeyOptions :=
  ⟨by decide, by decide, by decide,
    semanticKey_deterministic nlpCapBag idHash idHash "x" "y" defaultKeyOptions
      rfl (by decide) (by decide) (by decide) (by decide) (by decide)⟩
